import Mathlib

/-!
# ext/openssl/ossl_x509cert.c

A shallow embedding of the certificate wrapper: the chain loader
(`ossl_x509_load` and its helpers), single-certificate construction
( ossl_x509_initialize ), signature checks (`ossl_x509_verify`,
`ossl_x509_check_private_key`) and the extension accessors.

The OpenSSL library is an external collaborator.  Its decoders, its
duplication routines and its signature primitives are fields of the structure
`Lib`; every theorem holds for every such library.  The OpenSSL error queue is
an explicit list of error codes that is threaded through the calls.
-/

namespace OsslX509Cert

/-! ## Data model -/

/-- An OpenSSL error code is a nonzero unsigned long; zero is what
`ERR_peek_last_error` answers on an empty queue. -/
abbrev ErrCode := ℕ+

/-- The OpenSSL error queue, oldest entry first. -/
abbrev ErrQueue := List ErrCode

/-- An extension value, as held in a certificate or in a Ruby extension object. -/
structure X509_EXTENSION where
  oid : Nat
  critical : Bool
  value : Nat
deriving DecidableEq, Repr

/-- The fields of the OpenSSL certificate structure that the wrapper reads or writes. -/
structure X509 where
  version : Int
  serial : Int
  extensions : List X509_EXTENSION
deriving DecidableEq, Repr

/-- A key handle: an identity with the two capabilities the wrapper asks for. -/
structure EVP_PKEY where
  id : Nat
  has_public : Bool
  has_private : Bool
deriving DecidableEq, Repr

/-- Ruby values that reach the wrapper as arguments or leave it as results. -/
inductive VALUE where
  | Qnil
  | Qtrue
  | Qfalse
  | fixnum (n : Int)
  | str (bytes : List Nat)
  | x509ext (e : X509_EXTENSION)
  | pkey (k : EVP_PKEY)
  | array (members : List VALUE)
  | object (id : Nat)

/-- The Ruby Certificate object: its frozen flag and `RTYPEDDATA_DATA`. -/
structure Certificate where
  frozen : Bool
  data : Option X509
deriving DecidableEq, Repr

/-- Exception classes raised by the wrapper and by the Ruby API calls it makes. -/
inductive RbClass where
  | eX509CertError
  | rb_eRuntimeError
  | rb_eTypeError
  | rb_eArgError
  | rb_eRangeError
  | rb_eFrozenError
deriving DecidableEq, Repr

/-- A raised exception: its class and the message handed to the raise call
(`none` for a NULL format). -/
structure Exception where
  klass : RbClass
  mesg : Option String
deriving DecidableEq, Repr

/-- What a call produces: a returned value or a raised exception. -/
inductive Outcome (α : Type) where
  | ret (v : α)
  | raise (e : Exception)
deriving DecidableEq, Repr

/-- The state a decoder call works on: the byte source with its read position,
and the error queue. -/
structure St (β : Type) where
  bio : β
  err : ErrQueue
deriving DecidableEq, Repr

/-- The external collaborators, for a byte source of type `β`. -/
structure Lib (β : Type) where
  /-- binary decode of one certificate -/
  d2i_X509_bio : St β → Option X509 × St β
  /-- text decode of one certificate -/
  PEM_read_bio_X509 : St β → Option X509 × St β
  /-- moves the read position back to the start -/
  BIO_reset : β → β
  BIO_eof : β → Bool
  ERR_GET_REASON : Nat → Nat
  PEM_R_NO_START_LINE : Nat
  X509_dup : X509 → Option X509
  X509_EXTENSION_dup : X509_EXTENSION → Option X509_EXTENSION
  /-- answer of the signature check, and the error queue it leaves -/
  X509_verify : X509 → EVP_PKEY → ErrQueue → Int × ErrQueue
  X509_check_private_key : X509 → EVP_PKEY → ErrQueue → Int × ErrQueue
  ossl_to_der_if_possible : VALUE → Except Exception VALUE
  ossl_obj2bio : VALUE → Except Exception β
  /-- the Ruby extension object for an extension pointer, which may be NULL -/
  ossl_x509ext_new : Option X509_EXTENSION → Except Exception VALUE
  /-- answer of the version setter, and the certificate it leaves -/
  X509_set_version : X509 → Int → Int × X509
  /-- largest value of the C type long -/
  LONG_MAX : Int

/-! ## Error queue -/

/-- The most recent error code, or zero when the queue is empty. -/
def ERR_peek_last_error (q : ErrQueue) : Nat :=
  match q.getLast? with
  | some e => e.val
  | none => 0

/-- Modelled from the spec: ossl_clear_error (ossl.c) is not part of the source
at hand; the spec has it clear the error state. -/
def ossl_clear_error (_q : ErrQueue) : ErrQueue :=
  []

/-- Modelled from the spec: the macro OSSL_BIO_reset (ossl.h) is not part of the
source at hand; the spec has the detector reset the read position to the start
and manage the decoder error state between the two attempts, which is read here
as: move the position back, then clear the error state. -/
def OSSL_BIO_reset {β : Type} (L : Lib β) (s : St β) : St β :=
  { bio := L.BIO_reset s.bio, err := ossl_clear_error s.err }

/-! ## Public constructor -/

/-- Wraps a duplicate of the certificate in a new Certificate object. -/
def ossl_x509_new {β : Type} (L : Lib β) (x509 : X509) : Outcome Certificate :=
  match L.X509_dup x509 with
  | none => .raise ⟨.eX509CertError, some "X509_dup"⟩
  | some new => .ret ⟨false, some new⟩

/-! ## Chain loading -/

/-- Pushes a new Certificate object for `certificate` on the array, creating the
array when it is still nil; the decoded certificate is freed either way. -/
def load_chained_certificates_append {β : Type} (L : Lib β)
    (certificates : Option (List Certificate)) (certificate : X509) :
    Outcome (List Certificate) :=
  match ossl_x509_new L certificate with
  | .raise e => .raise e
  | .ret obj => .ret (certificates.getD [] ++ [obj])

/-- The `while` loop of `load_chained_certificates_PEM`: it reads certificates
until a read yields none.  `none` is returned when the fuel runs out. -/
def load_chained_certificates_PEM_loop {β : Type} (L : Lib β) :
    Nat → St β → List Certificate → Option (Outcome (List Certificate) × St β)
  | 0, _, _ => none
  | fuel + 1, s, certificates =>
    match L.PEM_read_bio_X509 s with
    | (some certificate, s1) =>
      match load_chained_certificates_append L (some certificates) certificate with
      | .raise e => some (.raise e, s1)
      | .ret certificates1 => load_chained_certificates_PEM_loop L fuel s1 certificates1
    | (none, s1) => some (.ret certificates, s1)

/-- Text mode: the first read decides between nothing-to-load and draining. -/
def load_chained_certificates_PEM {β : Type} (L : Lib β) (fuel : Nat) (s : St β) :
    Option (Outcome (Option (List Certificate)) × St β) :=
  match L.PEM_read_bio_X509 s with
  | (none, s1) =>
    let s2 :=
      if L.ERR_GET_REASON (ERR_peek_last_error s1.err) = L.PEM_R_NO_START_LINE then
        { s1 with err := ossl_clear_error s1.err }
      else s1
    if ERR_peek_last_error s2.err ≠ 0 then
      some (.raise ⟨.eX509CertError, none⟩, s2)
    else
      some (.ret none, s2)
  | (some certificate, s1) =>
    match load_chained_certificates_append L none certificate with
    | .raise e => some (.raise e, s1)
    | .ret certificates =>
      match load_chained_certificates_PEM_loop L fuel s1 certificates with
      | none => none
      | some (.raise e, s2) => some (.raise e, s2)
      | some (.ret certificates1, s2) =>
        if L.ERR_GET_REASON (ERR_peek_last_error s2.err) = L.PEM_R_NO_START_LINE then
          some (.ret (some certificates1), { s2 with err := ossl_clear_error s2.err })
        else if L.BIO_eof s2.bio = true ∧ ERR_peek_last_error s2.err = 0 then
          some (.ret (some certificates1), s2)
        else
          some (.raise ⟨.eX509CertError, none⟩, s2)

/-- Binary mode: one decode; a failure is ignored and answered with nil. -/
def load_chained_certificates_DER {β : Type} (L : Lib β) (s : St β) :
    Outcome (Option (List Certificate)) × St β :=
  match L.d2i_X509_bio s with
  | (none, s1) => (.ret none, { s1 with err := ossl_clear_error s1.err })
  | (some certificate, s1) =>
    match load_chained_certificates_append L none certificate with
    | .raise e => (.raise e, s1)
    | .ret certificates => (.ret (some certificates), s1)

/-- Binary first, then text from the reset position, else a format error. -/
def load_chained_certificates {β : Type} (L : Lib β) (fuel : Nat) (s : St β) :
    Option (Outcome (List Certificate) × St β) :=
  match load_chained_certificates_DER L s with
  | (.raise e, s1) => some (.raise e, s1)
  | (.ret (some certificates), s1) => some (.ret certificates, s1)
  | (.ret none, s1) =>
    match load_chained_certificates_PEM L fuel (OSSL_BIO_reset L s1) with
    | none => none
    | some (.raise e, s2) => some (.raise e, s2)
    | some (.ret (some certificates), s2) => some (.ret certificates, s2)
    | some (.ret none, s2) =>
      some (.raise ⟨.eX509CertError, some "Could not detect format of certificate data!"⟩, s2)

/-- The method `Certificate.load`: the byte source is built from the argument,
drained, and freed on every path. -/
def ossl_x509_load {β : Type} (L : Lib β) (fuel : Nat) (buffer : VALUE) (err : ErrQueue) :
    Option (Outcome (List Certificate) × ErrQueue) :=
  match L.ossl_obj2bio buffer with
  | .error e => some (.raise e, err)
  | .ok bio =>
    match load_chained_certificates L fuel ⟨bio, err⟩ with
    | none => none
    | some (r, s) => some (r, s.err)

/-! ## Object access -/

/-- The macro `GetX509`: the certificate behind the object, or a runtime error
when the object holds none. -/
def GetX509 (obj : Certificate) : Except Exception X509 :=
  match obj.data with
  | none => .error ⟨.rb_eRuntimeError, some "CERT wasn\x27t initialized!"⟩
  | some x509 => .ok x509

/-- Modelled from the spec: GetPKeyPtr (ossl_pkey.c) is not part of the source
at hand; keys are opaque capability objects, and a value that is no key is an
invalid argument. -/
def GetPKeyPtr (obj : VALUE) : Except Exception EVP_PKEY :=
  match obj with
  | .pkey k => .ok k
  | _ => .error ⟨.rb_eTypeError, none⟩

/-- Modelled from the spec: ossl_pkey_check_public_key (ossl_pkey.c) is not part
of the source at hand; a key unusable as a public key is an invalid argument. -/
def ossl_pkey_check_public_key (pkey : EVP_PKEY) : Option Exception :=
  if pkey.has_public = true then none else some ⟨.rb_eArgError, none⟩

/-- Modelled from the spec: GetPrivPKeyPtr (ossl_pkey.c) is not part of the
source at hand; a key unusable as a private key is an invalid argument. -/
def GetPrivPKeyPtr (obj : VALUE) : Except Exception EVP_PKEY :=
  match obj with
  | .pkey k => if k.has_private = true then .ok k else .error ⟨.rb_eArgError, none⟩
  | _ => .error ⟨.rb_eTypeError, none⟩

/-! ## Construction from bytes -/

/-- The method `Certificate.new`, with zero or one argument: binary decode, and
on failure text decode from the reset position.  The results are the returned
value, the object afterwards and the error queue afterwards. -/
def ossl_x509_initialize {β : Type} (L : Lib β) (argv : List VALUE) (self : Certificate)
    (err : ErrQueue) : Outcome Unit × Certificate × ErrQueue :=
  if self.frozen = true then (.raise ⟨.rb_eFrozenError, none⟩, self, err)
  else
    match argv with
    | [] => (.ret (), self, err)
    | [arg] =>
      match L.ossl_to_der_if_possible arg with
      | .error e => (.raise e, self, err)
      | .ok arg1 =>
        match L.ossl_obj2bio arg1 with
        | .error e => (.raise e, self, err)
        | .ok bio =>
          let r :=
            match L.d2i_X509_bio ⟨bio, err⟩ with
            | (some x509, s) => (some x509, s)
            | (none, s) => L.PEM_read_bio_X509 (OSSL_BIO_reset L s)
          match r with
          | (none, s) => (.raise ⟨.eX509CertError, some "PEM_read_bio_X509"⟩, self, s.err)
          | (some x509, s) => (.ret (), { self with data := some x509 }, s.err)
    | _ :: _ :: _ => (.raise ⟨.rb_eArgError, none⟩, self, err)

/-! ## Signature checks -/

/-- The method `verify`: true on answer 1, false with a cleared error queue on
answer 0, an error on any other answer. -/
def ossl_x509_verify {β : Type} (L : Lib β) (self : Certificate) (key : VALUE)
    (err : ErrQueue) : Outcome Bool × Certificate × ErrQueue :=
  match GetX509 self with
  | .error e => (.raise e, self, err)
  | .ok x509 =>
    match GetPKeyPtr key with
    | .error e => (.raise e, self, err)
    | .ok pkey =>
      match ossl_pkey_check_public_key pkey with
      | some e => (.raise e, self, err)
      | none =>
        match L.X509_verify x509 pkey err with
        | (r, err1) =>
          if r = 1 then (.ret true, self, err1)
          else if r = 0 then (.ret false, self, ossl_clear_error err1)
          else (.raise ⟨.eX509CertError, none⟩, self, err1)

/-- The method `check_private_key`: false with a cleared error queue on answer
0, true otherwise. -/
def ossl_x509_check_private_key {β : Type} (L : Lib β) (self : Certificate) (key : VALUE)
    (err : ErrQueue) : Outcome Bool × Certificate × ErrQueue :=
  match GetPrivPKeyPtr key with
  | .error e => (.raise e, self, err)
  | .ok pkey =>
    match GetX509 self with
    | .error e => (.raise e, self, err)
    | .ok x509 =>
      match L.X509_check_private_key x509 pkey err with
      | (r, err1) =>
        if r = 0 then (.ret false, self, ossl_clear_error err1)
        else (.ret true, self, err1)

/-! ## Extensions -/

/-- Number of extensions in the certificate. -/
def X509_get_ext_count (x : X509) : Int :=
  x.extensions.length

/-- The extension at a location, NULL outside the list. -/
def X509_get_ext (x : X509) (loc : Int) : Option X509_EXTENSION :=
  if loc < 0 then none else x.extensions[loc.toNat]?

/-- Removes the extension at a location and answers it; NULL and no change
outside the list. -/
def X509_delete_ext (x : X509) (loc : Int) : Option X509_EXTENSION × X509 :=
  if loc < 0 then (none, x)
  else (x.extensions[loc.toNat]?, { x with extensions := x.extensions.eraseIdx loc.toNat })

/-- Inserts a duplicate of the extension at a location, at the end for -1 or a
location past the end; answer 0 and no change when the duplicate cannot be made. -/
def X509_add_ext {β : Type} (L : Lib β) (x : X509) (ex : X509_EXTENSION) (loc : Int) :
    Int × X509 :=
  match L.X509_EXTENSION_dup ex with
  | none => (0, x)
  | some new =>
    let n := x.extensions.length
    let pos := if loc > n ∨ loc < 0 then n else loc.toNat
    (1, { x with extensions := x.extensions.take pos ++ new :: x.extensions.drop pos })

/-- The read loop of `ossl_x509_get_extensions`, with `n` rounds left from
index `i`. -/
def ossl_x509_get_extensions_loop {β : Type} (L : Lib β) (x509 : X509) :
    Nat → Int → List VALUE → Outcome (List VALUE)
  | 0, _, ary => .ret ary
  | n + 1, i, ary =>
    match L.ossl_x509ext_new (X509_get_ext x509 i) with
    | .error e => .raise e
    | .ok obj => ossl_x509_get_extensions_loop L x509 n (i + 1) (ary ++ [obj])

/-- The method `extensions`: a new array with one extension object per entry. -/
def ossl_x509_get_extensions {β : Type} (L : Lib β) (self : Certificate) : Outcome VALUE :=
  match GetX509 self with
  | .error e => .raise e
  | .ok x509 =>
    let count := X509_get_ext_count x509
    match ossl_x509_get_extensions_loop L x509 count.toNat 0 [] with
    | .raise e => .raise e
    | .ret ary => .ret (.array ary)

/-- The macro `Check_Type(ary, T_ARRAY)`: the members of an array, a type error
for any other value. -/
def Check_Type_T_ARRAY (ary : VALUE) : Except Exception (List VALUE) :=
  match ary with
  | .array members => .ok members
  | _ => .error ⟨.rb_eTypeError, none⟩

/-- The macro `OSSL_Check_Kind(obj, cX509Ext)`: a type error unless the value is
an extension object. -/
def OSSL_Check_Kind_cX509Ext (obj : VALUE) : Option Exception :=
  match obj with
  | .x509ext _ => none
  | _ => some ⟨.rb_eTypeError, none⟩

/-- The extension behind an extension object. -/
def GetX509ExtPtr (obj : VALUE) : Except Exception X509_EXTENSION :=
  match obj with
  | .x509ext e => .ok e
  | _ => .error ⟨.rb_eTypeError, none⟩

/-- First loop of `ossl_x509_set_extensions`: every member is checked in turn. -/
def ossl_x509_set_extensions_check : List VALUE → Option Exception
  | [] => none
  | obj :: rest =>
    match OSSL_Check_Kind_cX509Ext obj with
    | some e => some e
    | none => ossl_x509_set_extensions_check rest

/-- Second loop of `ossl_x509_set_extensions`: `i` times, delete location 0. -/
def ossl_x509_set_extensions_delete : Nat → X509 → X509
  | 0, x509 => x509
  | i + 1, x509 => ossl_x509_set_extensions_delete i (X509_delete_ext x509 0).2

/-- Third loop of `ossl_x509_set_extensions`: every member is added at the end;
the first failure raises and leaves what was installed so far. -/
def ossl_x509_set_extensions_add {β : Type} (L : Lib β) :
    List VALUE → X509 → Option Exception × X509
  | [], x509 => (none, x509)
  | obj :: rest, x509 =>
    match GetX509ExtPtr obj with
    | .error e => (some e, x509)
    | .ok ext =>
      match X509_add_ext L x509 ext (-1) with
      | (r, x1) =>
        if r = 0 then (some ⟨.eX509CertError, some "X509_add_ext"⟩, x1)
        else ossl_x509_set_extensions_add L rest x1

/-- The method `extensions=`: check the argument, delete every extension, add
the new ones.  The results are the returned value and the object afterwards. -/
def ossl_x509_set_extensions {β : Type} (L : Lib β) (self : Certificate) (ary : VALUE) :
    Outcome VALUE × Certificate :=
  match Check_Type_T_ARRAY ary with
  | .error e => (.raise e, self)
  | .ok members =>
    match ossl_x509_set_extensions_check members with
    | some e => (.raise e, self)
    | none =>
      match GetX509 self with
      | .error e => (.raise e, self)
      | .ok x509 =>
        let x1 := ossl_x509_set_extensions_delete (X509_get_ext_count x509).toNat x509
        match ossl_x509_set_extensions_add L members x1 with
        | (some e, x2) => (.raise e, { self with data := some x2 })
        | (none, x2) => (.ret ary, { self with data := some x2 })

/-! ## Version -/

/-- The macro `NUM2LONG`: the integer when it fits the C type long, a range
error when it does not, a type error for a value that is no integer. -/
def NUM2LONG {β : Type} (L : Lib β) (v : VALUE) : Except Exception Int :=
  match v with
  | .fixnum n =>
    if -L.LONG_MAX - 1 ≤ n ∧ n ≤ L.LONG_MAX then .ok n else .error ⟨.rb_eRangeError, none⟩
  | _ => .error ⟨.rb_eTypeError, none⟩

/-- The stored version number. -/
def X509_get_version (x : X509) : Int :=
  x.version

/-- The method `version`. -/
def ossl_x509_get_version (self : Certificate) : Outcome VALUE :=
  match GetX509 self with
  | .error e => .raise e
  | .ok x509 => .ret (.fixnum (X509_get_version x509))

/-- The method `version=`: a negative number is refused before the certificate
is touched. -/
def ossl_x509_set_version {β : Type} (L : Lib β) (self : Certificate) (version : VALUE) :
    Outcome VALUE × Certificate :=
  match NUM2LONG L version with
  | .error e => (.raise e, self)
  | .ok ver =>
    if ver < 0 then (.raise ⟨.eX509CertError, some "version must be >= 0!"⟩, self)
    else
      match GetX509 self with
      | .error e => (.raise e, self)
      | .ok x509 =>
        match L.X509_set_version x509 ver with
        | (r, x1) =>
          if r = 0 then (.raise ⟨.eX509CertError, none⟩, { self with data := some x1 })
          else (.ret version, { self with data := some x1 })

/-! ## Decoder traces -/

/-- The text decoder, read repeatedly from state `s`, yields the certificates
`cs` in succession and then yields none, leaving state `t`. -/
def PemYields {β : Type} (L : Lib β) : St β → List X509 → St β → Prop
  | s, [], t => L.PEM_read_bio_X509 s = (none, t)
  | s, c :: cs, t =>
    (L.PEM_read_bio_X509 s).1 = some c ∧ PemYields L (L.PEM_read_bio_X509 s).2 cs t

/-! ## A small library instance

A memory buffer with toy encodings, used to evaluate the embedding on concrete
inputs: byte 48 followed by a serial number is a binary certificate, byte 45
followed by a serial number is a text block. -/

/-- A memory byte source: its bytes and its read position. -/
structure MemBuf where
  data : List Nat
  pos : Nat
deriving DecidableEq, Repr

/-- The certificate with the given serial number. -/
def sampleCert (n : Nat) : X509 :=
  ⟨2, n, []⟩

/-- An ASN.1 error code, reason 168 (wrong tag). -/
def demoErrAsn1 : ErrCode := 218529960

/-- A PEM error code, reason 108 (no start line). -/
def demoErrNoStartLine : ErrCode := 151584876

/-- A PEM error code, reason 102 (bad end line). -/
def demoErrBadEndLine : ErrCode := 151584870

/-- Binary decode at the read position. -/
def demo_d2i (s : St MemBuf) : Option X509 × St MemBuf :=
  match s.bio.data.drop s.bio.pos with
  | 48 :: n :: _ => (some (sampleCert n), ⟨⟨s.bio.data, s.bio.pos + 2⟩, s.err⟩)
  | _ => (none, ⟨s.bio, s.err ++ [demoErrAsn1]⟩)

/-- Scan for the next text block: the certificate found, the bytes left, and
the errors recorded.  A lone byte 0 ends the data without an error; a marker
without a serial number is a damaged block. -/
def demo_pem_scan : List Nat → Option X509 × List Nat × ErrQueue
  | [] => (none, [], [demoErrNoStartLine])
  | [0] => (none, [], [])
  | [45] => (none, [], [demoErrBadEndLine])
  | 45 :: n :: rest => (some (sampleCert n), rest, [])
  | _ :: rest => demo_pem_scan rest

/-- Text decode from the read position. -/
def demo_pem (s : St MemBuf) : Option X509 × St MemBuf :=
  match demo_pem_scan (s.bio.data.drop s.bio.pos) with
  | (r, rest, errs) => (r, ⟨⟨s.bio.data, s.bio.data.length - rest.length⟩, s.err ++ errs⟩)

/-- The signature check: the key whose id is the serial number validates, key 0
is broken, any other key does not match. -/
def demo_verify (x : X509) (k : EVP_PKEY) (err : ErrQueue) : Int × ErrQueue :=
  if (k.id : Int) = x.serial then (1, err)
  else if k.id = 0 then (-1, err ++ [demoErrAsn1])
  else (0, err ++ [demoErrAsn1])

/-- The key match check: the key whose id is the serial number matches. -/
def demo_check_private_key (x : X509) (k : EVP_PKEY) (err : ErrQueue) : Int × ErrQueue :=
  if (k.id : Int) = x.serial then (1, err) else (0, err ++ [demoErrAsn1])

/-- The library instance over memory buffers. -/
def demoLib : Lib MemBuf where
  d2i_X509_bio := demo_d2i
  PEM_read_bio_X509 := demo_pem
  BIO_reset := fun b => ⟨b.data, 0⟩
  BIO_eof := fun b => decide (b.data.length ≤ b.pos)
  ERR_GET_REASON := fun l => l % 4096
  PEM_R_NO_START_LINE := 108
  X509_dup := fun x => some x
  X509_EXTENSION_dup := fun e => some e
  X509_verify := demo_verify
  X509_check_private_key := demo_check_private_key
  ossl_to_der_if_possible := fun v => .ok v
  ossl_obj2bio := fun v =>
    match v with
    | .str bytes => .ok ⟨bytes, 0⟩
    | _ => .error ⟨.rb_eTypeError, none⟩
  ossl_x509ext_new := fun p =>
    match p with
    | some e => .ok (.x509ext e)
    | none => .ok (.x509ext ⟨0, false, 0⟩)
  X509_set_version := fun x v => (1, { x with version := v })
  LONG_MAX := 9223372036854775807

/-! ## Lemmas on the error queue and the read loop -/

/-- The last error code is zero exactly on the empty queue. -/
theorem ERR_peek_last_error_eq_zero (q : ErrQueue) : ERR_peek_last_error q = 0 ↔ q = [] := by
  unfold ERR_peek_last_error
  cases h : q.getLast? with
  | none => simpa using List.getLast?_eq_none_iff.mp h
  | some e =>
    have hq : q ≠ [] := by
      intro hq
      simp [hq] at h
    simp only [hq, iff_false]
    exact Nat.pos_iff_ne_zero.mp e.pos

/-- Appending to the array with a faithful duplicate. -/
theorem load_chained_certificates_append_dup {β : Type} (L : Lib β)
    (certificates : Option (List Certificate)) (c : X509) (h : L.X509_dup c = some c) :
    load_chained_certificates_append L certificates c
      = .ret (certificates.getD [] ++ [⟨false, some c⟩]) := by
  simp [load_chained_certificates_append, ossl_x509_new, h]

/-- The read loop follows a decoder trace: with enough fuel it returns the
accumulated array extended by the certificates of the trace, in order. -/
theorem load_chained_certificates_PEM_loop_trace {β : Type} (L : Lib β) (cs : List X509) :
    ∀ (fuel : Nat) (s t : St β) (acc : List Certificate),
      PemYields L s cs t → (∀ c ∈ cs, L.X509_dup c = some c) → cs.length < fuel →
      load_chained_certificates_PEM_loop L fuel s acc
        = some (.ret (acc ++ cs.map (fun c => (⟨false, some c⟩ : Certificate))), t) := by
  induction cs with
  | nil =>
    intro fuel s t acc hy _ hf
    obtain ⟨k, rfl⟩ : ∃ k, fuel = k + 1 := ⟨fuel - 1, by simp at hf; omega⟩
    simp only [PemYields] at hy
    simp [load_chained_certificates_PEM_loop, hy]
  | cons c cs ih =>
    intro fuel s t acc hy hdup hf
    obtain ⟨k, rfl⟩ : ∃ k, fuel = k + 1 := ⟨fuel - 1, by simp at hf; omega⟩
    simp only [PemYields] at hy
    obtain ⟨h1, h2⟩ := hy
    have hc : L.X509_dup c = some c := hdup c (by simp)
    have hrest : ∀ d ∈ cs, L.X509_dup d = some d := fun d hd => hdup d (by simp [hd])
    have hk : cs.length < k := by simp at hf; omega
    have hread : L.PEM_read_bio_X509 s = (some c, (L.PEM_read_bio_X509 s).2) := by
      rw [← h1]
    rw [load_chained_certificates_PEM_loop, hread]
    simp only [load_chained_certificates_append_dup L _ c hc, Option.getD_some]
    rw [ih k _ t _ h2 hrest hk]
    simp

/-! ## Theorems -/

/-- C1: when the binary decode fails and the text decoder, read repeatedly from
the reset position, yields the certificates c1, ..., cn (n at least 1) and then
fails with reason "no start line", load returns exactly the Certificate objects
for c1, ..., cn in stream order, and the error queue is empty. -/
theorem load_returns_pem_chain_in_order {β : Type} (L : Lib β) (fuel : Nat) (buffer : VALUE)
    (err : ErrQueue) (bio : β) (s1 t : St β) (cs : List X509)
    (hbio : L.ossl_obj2bio buffer = .ok bio)
    (hder : L.d2i_X509_bio ⟨bio, err⟩ = (none, s1))
    (hne : cs ≠ [])
    (hpem : PemYields L (OSSL_BIO_reset L { s1 with err := ossl_clear_error s1.err }) cs t)
    (hnsl : L.ERR_GET_REASON (ERR_peek_last_error t.err) = L.PEM_R_NO_START_LINE)
    (hdup : ∀ c ∈ cs, L.X509_dup c = some c)
    (hfuel : cs.length ≤ fuel) :
    ossl_x509_load L fuel buffer err
      = some (.ret (cs.map (fun c => (⟨false, some c⟩ : Certificate))), []) := by
  cases cs with
  | nil => exact absurd rfl hne
  | cons c cs =>
    simp only [PemYields] at hpem
    obtain ⟨h1, h2⟩ := hpem
    have hc : L.X509_dup c = some c := hdup c (by simp)
    have hrest : ∀ d ∈ cs, L.X509_dup d = some d := fun d hd => hdup d (by simp [hd])
    have hk : cs.length < fuel := by simp at hfuel; omega
    have hread : L.PEM_read_bio_X509 (OSSL_BIO_reset L { s1 with err := ossl_clear_error s1.err })
        = (some c, (L.PEM_read_bio_X509
            (OSSL_BIO_reset L { s1 with err := ossl_clear_error s1.err })).2) := by
      rw [← h1]
    have hloop := load_chained_certificates_PEM_loop_trace L cs fuel _ t
      [(⟨false, some c⟩ : Certificate)] h2 hrest hk
    have hP : load_chained_certificates_PEM L fuel
        (OSSL_BIO_reset L { s1 with err := ossl_clear_error s1.err })
        = some (.ret (some ((c :: cs).map (fun c => (⟨false, some c⟩ : Certificate)))),
            { t with err := ossl_clear_error t.err }) := by
      rw [load_chained_certificates_PEM, hread]
      simp only [load_chained_certificates_append_dup L _ c hc, Option.getD_none, List.nil_append]
      rw [hloop]
      simp [hnsl]
    simp only [ossl_x509_load, hbio, load_chained_certificates, load_chained_certificates_DER,
      hder, hP]
    simp [ossl_clear_error]

/-- C1 at three concatenated text blocks. -/
theorem load_returns_pem_chain_in_order_three :
    ossl_x509_load demoLib 3 (.str [45, 1, 45, 2, 45, 3]) []
      = some (.ret ([sampleCert 1, sampleCert 2, sampleCert 3].map
          (fun c => (⟨false, some c⟩ : Certificate))), []) :=
  load_returns_pem_chain_in_order demoLib 3 (.str [45, 1, 45, 2, 45, 3]) []
    ⟨[45, 1, 45, 2, 45, 3], 0⟩ ⟨⟨[45, 1, 45, 2, 45, 3], 0⟩, [demoErrAsn1]⟩
    ⟨⟨[45, 1, 45, 2, 45, 3], 6⟩, [demoErrNoStartLine]⟩
    [sampleCert 1, sampleCert 2, sampleCert 3]
    rfl rfl (by decide) (by simp only [PemYields]; decide) (by decide) (by decide) (by decide)

/-- C2: when the binary decode of one certificate succeeds with certificate c,
load returns the one-element sequence holding the Certificate object for c,
whatever the text decoder, the reset and the end-of-data test are (they are
never consulted) and whatever the fuel; the result depends on the input only
through the answer of that one binary decode. -/
theorem load_der_returns_single {β : Type} (L : Lib β) (fuel : Nat) (buffer : VALUE)
    (err : ErrQueue) (bio : β) (c : X509) (s1 : St β)
    (pem : St β → Option X509 × St β) (reset : β → β) (eof : β → Bool)
    (hbio : L.ossl_obj2bio buffer = .ok bio)
    (hder : L.d2i_X509_bio ⟨bio, err⟩ = (some c, s1))
    (hdup : L.X509_dup c = some c) :
    ossl_x509_load { L with PEM_read_bio_X509 := pem, BIO_reset := reset, BIO_eof := eof }
        fuel buffer err
      = some (.ret [⟨false, some c⟩], s1.err) := by
  simp [ossl_x509_load, hbio, load_chained_certificates, load_chained_certificates_DER, hder,
    load_chained_certificates_append, ossl_x509_new, hdup]

/-- C2 at a binary certificate followed by a second one: only the first is
returned, also with a text decoder that always fails. -/
theorem load_der_returns_single_trailing :
    ossl_x509_load { demoLib with
        PEM_read_bio_X509 := fun s => (none, s), BIO_reset := id, BIO_eof := fun _ => false }
        0 (.str [48, 7, 48, 8]) []
      = some (.ret [⟨false, some (sampleCert 7)⟩], []) :=
  load_der_returns_single demoLib 0 (.str [48, 7, 48, 8]) [] ⟨[48, 7, 48, 8], 0⟩ (sampleCert 7)
    ⟨⟨[48, 7, 48, 8], 2⟩, []⟩ (fun s => (none, s)) id (fun _ => false) rfl rfl rfl

/-- The read loop never shrinks the array. -/
theorem load_chained_certificates_PEM_loop_length {β : Type} (L : Lib β) :
    ∀ (fuel : Nat) (s t : St β) (acc r : List Certificate),
      load_chained_certificates_PEM_loop L fuel s acc = some (.ret r, t) →
      acc.length ≤ r.length := by
  intro fuel
  induction fuel with
  | zero =>
    intro s t acc r h
    simp [load_chained_certificates_PEM_loop] at h
  | succ k ih =>
    intro s t acc r h
    rw [load_chained_certificates_PEM_loop] at h
    rcases hread : L.PEM_read_bio_X509 s with ⟨_ | c, s1⟩
    · rw [hread] at h
      simp only [Option.some.injEq, Prod.mk.injEq, Outcome.ret.injEq] at h
      rw [h.1]
    · rw [hread] at h
      simp only [load_chained_certificates_append, ossl_x509_new] at h
      cases hd : L.X509_dup c with
      | none => simp [hd] at h
      | some d =>
        simp only [hd, Option.getD_some] at h
        have := ih _ _ _ _ h
        simp at this
        omega

/-- A successful text phase never answers an empty array. -/
theorem load_chained_certificates_PEM_nonempty {β : Type} (L : Lib β) (fuel : Nat)
    (s t : St β) (cs : List Certificate)
    (h : load_chained_certificates_PEM L fuel s = some (.ret (some cs), t)) : cs ≠ [] := by
  rw [load_chained_certificates_PEM] at h
  rcases hread : L.PEM_read_bio_X509 s with ⟨_ | c, s1⟩
  · rw [hread] at h
    simp only at h
    split_ifs at h <;> simp at h
  · rw [hread] at h
    simp only [load_chained_certificates_append, ossl_x509_new] at h
    cases hd : L.X509_dup c with
    | none => simp [hd] at h
    | some d =>
      simp only [hd, Option.getD_none, List.nil_append] at h
      rcases hl : load_chained_certificates_PEM_loop L fuel s1 [⟨false, some d⟩]
        with _ | ⟨⟨r⟩ | e, s2⟩
      · simp [hl] at h
      · have hlen := load_chained_certificates_PEM_loop_length L fuel s1 s2 _ r hl
        rw [hl] at h
        simp only at h
        have hcs : cs = r := by
          split at h
          · simp at h; exact h.1.symm
          · split at h
            · simp at h; exact h.1.symm
            · simp at h
        subst hcs
        intro hnil
        simp [hnil] at hlen
      · simp [hl] at h

/-- C3: load never succeeds with an empty sequence.  When the binary decode
fails and the first text decode from the reset position yields no certificate,
whatever errors it recorded, load raises a certificate error; and whenever
load returns, the returned sequence holds at least one certificate. -/
theorem load_never_empty {β : Type} (L : Lib β) (fuel : Nat) (buffer : VALUE)
    (err : ErrQueue) :
    (∀ (bio : β) (s1 : St β),
        L.ossl_obj2bio buffer = .ok bio →
        L.d2i_X509_bio ⟨bio, err⟩ = (none, s1) →
        (L.PEM_read_bio_X509
          (OSSL_BIO_reset L { s1 with err := ossl_clear_error s1.err })).1 = none →
        ∃ (e : Exception) (q : ErrQueue),
          ossl_x509_load L fuel buffer err = some (.raise e, q) ∧ e.klass = .eX509CertError) ∧
    (∀ (cs : List Certificate) (q : ErrQueue),
        ossl_x509_load L fuel buffer err = some (.ret cs, q) → cs ≠ []) := by
  constructor
  · intro bio s1 hbio hder hpem
    have hread : L.PEM_read_bio_X509 (OSSL_BIO_reset L { s1 with err := ossl_clear_error s1.err })
        = (none, (L.PEM_read_bio_X509
            (OSSL_BIO_reset L { s1 with err := ossl_clear_error s1.err })).2) := by
      rw [← hpem]
    simp only [ossl_x509_load, hbio, load_chained_certificates, load_chained_certificates_DER,
      hder, load_chained_certificates_PEM]
    rw [hread]
    simp only
    split_ifs <;> simp
  · intro cs q h
    simp only [ossl_x509_load] at h
    rcases hb : L.ossl_obj2bio buffer with e | bio
    · simp [hb] at h
    · simp only [hb, load_chained_certificates, load_chained_certificates_DER] at h
      rcases hd : L.d2i_X509_bio ⟨bio, err⟩ with ⟨_ | c, s1⟩
      · simp only [hd] at h
        rcases hp : load_chained_certificates_PEM L fuel
            (OSSL_BIO_reset L { s1 with err := ossl_clear_error s1.err })
          with _ | ⟨⟨_ | r⟩ | e, s2⟩
        · simp [hp] at h
        · simp [hp] at h
        · simp [hp] at h
          have := load_chained_certificates_PEM_nonempty L fuel _ s2 r hp
          rw [← h.1]
          exact this
        · simp [hp] at h
      · simp only [hd, load_chained_certificates_append, ossl_x509_new] at h
        cases hdup : L.X509_dup c with
        | none => simp [hdup] at h
        | some d =>
          simp [hdup] at h
          rw [← h.1]
          simp

/-- C3 at the empty byte stream, at unrelated bytes without a marker, and at a
successful load. -/
theorem load_never_empty_examples :
    (∃ (e : Exception) (q : ErrQueue),
      ossl_x509_load demoLib 0 (.str []) [] = some (.raise e, q) ∧ e.klass = .eX509CertError) ∧
    (∃ (e : Exception) (q : ErrQueue),
      ossl_x509_load demoLib 0 (.str [7, 7, 7]) [] = some (.raise e, q)
        ∧ e.klass = .eX509CertError) ∧
    ([⟨false, some (sampleCert 7)⟩] : List Certificate) ≠ [] :=
  ⟨(load_never_empty demoLib 0 (.str []) []).1 ⟨[], 0⟩ ⟨⟨[], 0⟩, [demoErrAsn1]⟩ rfl rfl rfl,
   (load_never_empty demoLib 0 (.str [7, 7, 7]) []).1 ⟨[7, 7, 7], 0⟩
      ⟨⟨[7, 7, 7], 0⟩, [demoErrAsn1]⟩ rfl rfl rfl,
   (load_never_empty demoLib 0 (.str [48, 7]) []).2 [⟨false, some (sampleCert 7)⟩] [] rfl⟩

/-- The text phase follows a decoder trace of at least one certificate: with
enough fuel its answer is decided by the state the failing read leaves. -/
theorem load_chained_certificates_PEM_trace {β : Type} (L : Lib β) (fuel : Nat)
    (s t : St β) (cs : List X509)
    (hne : cs ≠ [])
    (hpem : PemYields L s cs t)
    (hdup : ∀ c ∈ cs, L.X509_dup c = some c)
    (hfuel : cs.length ≤ fuel) :
    load_chained_certificates_PEM L fuel s
      = if L.ERR_GET_REASON (ERR_peek_last_error t.err) = L.PEM_R_NO_START_LINE then
          some (.ret (some (cs.map (fun c => (⟨false, some c⟩ : Certificate)))),
            { t with err := ossl_clear_error t.err })
        else if L.BIO_eof t.bio = true ∧ ERR_peek_last_error t.err = 0 then
          some (.ret (some (cs.map (fun c => (⟨false, some c⟩ : Certificate)))), t)
        else
          some (.raise ⟨.eX509CertError, none⟩, t) := by
  cases cs with
  | nil => exact absurd rfl hne
  | cons c cs =>
    simp only [PemYields] at hpem
    obtain ⟨h1, h2⟩ := hpem
    have hc : L.X509_dup c = some c := hdup c (by simp)
    have hrest : ∀ d ∈ cs, L.X509_dup d = some d := fun d hd => hdup d (by simp [hd])
    have hk : cs.length < fuel := by simp at hfuel; omega
    have hread : L.PEM_read_bio_X509 s = (some c, (L.PEM_read_bio_X509 s).2) := by
      rw [← h1]
    have hloop := load_chained_certificates_PEM_loop_trace L cs fuel _ t
      [(⟨false, some c⟩ : Certificate)] h2 hrest hk
    rw [load_chained_certificates_PEM, hread]
    simp only [load_chained_certificates_append_dup L _ c hc, Option.getD_none, List.nil_append]
    rw [hloop]
    simp

/-- C4: in text-mode draining, after the certificates c1, ..., cn (n at least 1)
have been read, when the next read fails with a reason other than "no start
line": load returns all n Certificate objects if the stream is at end of data
and no error is pending, and otherwise load raises a certificate error and
returns no certificate at all. -/
theorem load_drain_failure_all_or_nothing {β : Type} (L : Lib β) (fuel : Nat) (buffer : VALUE)
    (err : ErrQueue) (bio : β) (s1 t : St β) (cs : List X509)
    (hbio : L.ossl_obj2bio buffer = .ok bio)
    (hder : L.d2i_X509_bio ⟨bio, err⟩ = (none, s1))
    (hne : cs ≠ [])
    (hpem : PemYields L (OSSL_BIO_reset L { s1 with err := ossl_clear_error s1.err }) cs t)
    (hreason : L.ERR_GET_REASON (ERR_peek_last_error t.err) ≠ L.PEM_R_NO_START_LINE)
    (hdup : ∀ c ∈ cs, L.X509_dup c = some c)
    (hfuel : cs.length ≤ fuel) :
    (L.BIO_eof t.bio = true ∧ ERR_peek_last_error t.err = 0 →
      ossl_x509_load L fuel buffer err
        = some (.ret (cs.map (fun c => (⟨false, some c⟩ : Certificate))), t.err)) ∧
    (¬ (L.BIO_eof t.bio = true ∧ ERR_peek_last_error t.err = 0) →
      ossl_x509_load L fuel buffer err = some (.raise ⟨.eX509CertError, none⟩, t.err)) := by
  have hP := load_chained_certificates_PEM_trace L fuel _ t cs hne hpem hdup hfuel
  rw [if_neg hreason] at hP
  constructor
  · intro h
    rw [if_pos h] at hP
    simp only [ossl_x509_load, hbio, load_chained_certificates, load_chained_certificates_DER,
      hder, hP]
  · intro h
    rw [if_neg h] at hP
    simp only [ossl_x509_load, hbio, load_chained_certificates, load_chained_certificates_DER,
      hder, hP]

/-- C4 at one text block followed by a silent end of data (the load returns
the block) and at one text block followed by a damaged block (the load raises
and returns nothing). -/
theorem load_drain_failure_all_or_nothing_examples :
    ossl_x509_load demoLib 1 (.str [45, 1, 0]) []
      = some (.ret [⟨false, some (sampleCert 1)⟩], []) ∧
    ossl_x509_load demoLib 1 (.str [45, 1, 45]) []
      = some (.raise ⟨.eX509CertError, none⟩, [demoErrBadEndLine]) :=
  ⟨(load_drain_failure_all_or_nothing demoLib 1 (.str [45, 1, 0]) [] ⟨[45, 1, 0], 0⟩
      ⟨⟨[45, 1, 0], 0⟩, [demoErrAsn1]⟩ ⟨⟨[45, 1, 0], 3⟩, []⟩ [sampleCert 1]
      rfl rfl (by decide) (by simp only [PemYields]; decide) (by decide) (by decide)
      (by decide)).1 (by decide),
   (load_drain_failure_all_or_nothing demoLib 1 (.str [45, 1, 45]) [] ⟨[45, 1, 45], 0⟩
      ⟨⟨[45, 1, 45], 0⟩, [demoErrAsn1]⟩ ⟨⟨[45, 1, 45], 3⟩, [demoErrBadEndLine]⟩ [sampleCert 1]
      rfl rfl (by decide) (by simp only [PemYields]; decide) (by decide) (by decide)
      (by decide)).2 (by decide)⟩

/-- C5, as stated, fails: on a text block the binary decode fails and records a
parser error, and load does not raise; it goes on to the text attempt and
returns the certificate. -/
theorem load_der_error_not_fatal :
    (demoLib.d2i_X509_bio ⟨⟨[45, 1], 0⟩, []⟩).1 = none ∧
    ERR_peek_last_error (demoLib.d2i_X509_bio ⟨⟨[45, 1], 0⟩, []⟩).2.err ≠ 0 ∧
    ossl_x509_load demoLib 1 (.str [45, 1]) []
      = some (.ret [⟨false, some (sampleCert 1)⟩], []) := by
  decide

/-- C5, amended: when the binary decode fails, load ignores the failure whether
or not the parser recorded an error: the text phase starts from the reset
position with an empty error queue, and its answer alone decides the load (its
error is raised, its array is returned, and its nil becomes the format error). -/
theorem load_der_failure_falls_through {β : Type} (L : Lib β) (fuel : Nat) (buffer : VALUE)
    (err : ErrQueue) (bio : β) (s1 : St β)
    (hbio : L.ossl_obj2bio buffer = .ok bio)
    (hder : L.d2i_X509_bio ⟨bio, err⟩ = (none, s1)) :
    ossl_x509_load L fuel buffer err
      = match load_chained_certificates_PEM L fuel ⟨L.BIO_reset s1.bio, []⟩ with
        | none => none
        | some (.raise e, s2) => some (.raise e, s2.err)
        | some (.ret (some certificates), s2) => some (.ret certificates, s2.err)
        | some (.ret none, s2) =>
          some (.raise ⟨.eX509CertError, some "Could not detect format of certificate data!"⟩,
            s2.err) := by
  simp only [ossl_x509_load, hbio, load_chained_certificates, load_chained_certificates_DER,
    hder, OSSL_BIO_reset, ossl_clear_error]
  rcases load_chained_certificates_PEM L fuel ⟨L.BIO_reset s1.bio, []⟩
    with _ | ⟨⟨_ | r⟩ | e, s2⟩ <;> rfl

/-- C5, amended, at a text block on which the binary parser records an error. -/
theorem load_der_failure_falls_through_example :
    ossl_x509_load demoLib 1 (.str [45, 1]) []
      = match load_chained_certificates_PEM demoLib 1 ⟨demoLib.BIO_reset ⟨[45, 1], 0⟩, []⟩ with
        | none => none
        | some (.raise e, s2) => some (.raise e, s2.err)
        | some (.ret (some certificates), s2) => some (.ret certificates, s2.err)
        | some (.ret none, s2) =>
          some (.raise ⟨.eX509CertError, some "Could not detect format of certificate data!"⟩,
            s2.err) :=
  load_der_failure_falls_through demoLib 1 (.str [45, 1]) [] ⟨[45, 1], 0⟩
    ⟨⟨[45, 1], 0⟩, [demoErrAsn1]⟩ rfl rfl

/-- C6, as stated, fails: on the empty stream the binary decode fails, the first
text decode finds no certificate with reason "no start line", and load does not
return an empty sequence; it raises. -/
theorem load_no_start_line_not_empty_success :
    (demoLib.d2i_X509_bio ⟨⟨[], 0⟩, []⟩).1 = none ∧
    (demoLib.PEM_read_bio_X509 ⟨⟨[], 0⟩, []⟩).1 = none ∧
    demoLib.ERR_GET_REASON
        (ERR_peek_last_error (demoLib.PEM_read_bio_X509 ⟨⟨[], 0⟩, []⟩).2.err)
      = demoLib.PEM_R_NO_START_LINE ∧
    ossl_x509_load demoLib 1 (.str []) []
      = some (.raise ⟨.eX509CertError, some "Could not detect format of certificate data!"⟩,
          []) ∧
    ossl_x509_load demoLib 1 (.str []) [] ≠ some (.ret [], []) := by
  decide

/-- C6, amended: when the binary attempt has failed and the first text decode
finds no certificate with reason "no start line", load clears the error state
and raises the certificate error "Could not detect format of certificate
data!". -/
theorem load_no_start_line_raises {β : Type} (L : Lib β) (fuel : Nat) (buffer : VALUE)
    (err : ErrQueue) (bio : β) (s1 t : St β)
    (hbio : L.ossl_obj2bio buffer = .ok bio)
    (hder : L.d2i_X509_bio ⟨bio, err⟩ = (none, s1))
    (hpem : L.PEM_read_bio_X509 (OSSL_BIO_reset L { s1 with err := ossl_clear_error s1.err })
      = (none, t))
    (hnsl : L.ERR_GET_REASON (ERR_peek_last_error t.err) = L.PEM_R_NO_START_LINE) :
    ossl_x509_load L fuel buffer err
      = some (.raise ⟨.eX509CertError, some "Could not detect format of certificate data!"⟩,
          []) := by
  simp only [ossl_x509_load, hbio, load_chained_certificates, load_chained_certificates_DER,
    hder, load_chained_certificates_PEM, hpem, hnsl, if_true]
  simp [ossl_clear_error, ERR_peek_last_error]

/-- C6, amended, at the empty stream. -/
theorem load_no_start_line_raises_empty :
    ossl_x509_load demoLib 0 (.str []) []
      = some (.raise ⟨.eX509CertError, some "Could not detect format of certificate data!"⟩,
          []) :=
  load_no_start_line_raises demoLib 0 (.str []) [] ⟨[], 0⟩ ⟨⟨[], 0⟩, [demoErrAsn1]⟩
    ⟨⟨[], 0⟩, [demoErrNoStartLine]⟩ rfl rfl rfl rfl

/-- C7: single-certificate decode on an unfrozen object.  With one argument the
object receives the binary decoder's certificate whenever the binary decode
succeeds, otherwise the text decoder's certificate read from the reset
position, and the constructor raises the decode error exactly when both
decoders fail.  With no argument the object is returned as it is and nothing is
decoded. -/
theorem initialize_der_then_pem {β : Type} (L : Lib β) (self : Certificate) (arg arg1 : VALUE)
    (err : ErrQueue) (bio : β)
    (hfrozen : self.frozen = false)
    (hder : L.ossl_to_der_if_possible arg = .ok arg1)
    (hbio : L.ossl_obj2bio arg1 = .ok bio) :
    (∀ (x : X509) (s : St β), L.d2i_X509_bio ⟨bio, err⟩ = (some x, s) →
      ossl_x509_initialize L [arg] self err = (.ret (), { self with data := some x }, s.err)) ∧
    (∀ (x : X509) (s t : St β), L.d2i_X509_bio ⟨bio, err⟩ = (none, s) →
      L.PEM_read_bio_X509 (OSSL_BIO_reset L s) = (some x, t) →
      ossl_x509_initialize L [arg] self err = (.ret (), { self with data := some x }, t.err)) ∧
    ((∃ (e : Exception), ( ossl_x509_initialize L [arg] self err).1 = .raise e) ↔
      ((L.d2i_X509_bio ⟨bio, err⟩).1 = none ∧
        (L.PEM_read_bio_X509 (OSSL_BIO_reset L (L.d2i_X509_bio ⟨bio, err⟩).2)).1 = none)) ∧
    ((L.d2i_X509_bio ⟨bio, err⟩).1 = none →
      (L.PEM_read_bio_X509 (OSSL_BIO_reset L (L.d2i_X509_bio ⟨bio, err⟩).2)).1 = none →
      ossl_x509_initialize L [arg] self err
        = (.raise ⟨.eX509CertError, some "PEM_read_bio_X509"⟩, self,
            (L.PEM_read_bio_X509 (OSSL_BIO_reset L (L.d2i_X509_bio ⟨bio, err⟩).2)).2.err)) ∧
    ossl_x509_initialize L [] self err = (.ret (), self, err) := by
  refine ⟨?_, ?_, ?_, ?_, ?_⟩
  · intro x s h
    simp [ ossl_x509_initialize, hfrozen, hder, hbio, h]
  · intro x s t h1 h2
    simp [ ossl_x509_initialize, hfrozen, hder, hbio, h1, h2]
  · rcases h1 : L.d2i_X509_bio ⟨bio, err⟩ with ⟨_ | x, s⟩
    · rcases h2 : L.PEM_read_bio_X509 (OSSL_BIO_reset L s) with ⟨_ | y, t⟩
      · simp [ ossl_x509_initialize, hfrozen, hder, hbio, h1, h2]
      · simp [ ossl_x509_initialize, hfrozen, hder, hbio, h1, h2]
    · simp [ ossl_x509_initialize, hfrozen, hder, hbio, h1]
  · rcases h1 : L.d2i_X509_bio ⟨bio, err⟩ with ⟨_ | x, s⟩
    · rcases h2 : L.PEM_read_bio_X509 (OSSL_BIO_reset L s) with ⟨_ | y, t⟩
      · simp [ ossl_x509_initialize, hfrozen, hder, hbio, h1, h2]
      · simp [ ossl_x509_initialize, hfrozen, hder, hbio, h1, h2]
    · simp [ ossl_x509_initialize, hfrozen, hder, hbio, h1]
  · simp [ ossl_x509_initialize, hfrozen]

/-- C7 at a binary certificate, at a text block, at bytes neither decoder
accepts, and without an argument. -/
theorem initialize_der_then_pem_examples :
    ossl_x509_initialize demoLib [.str [48, 7]] ⟨false, some (sampleCert 0)⟩ []
      = (.ret (), ⟨false, some (sampleCert 7)⟩, []) ∧
    ossl_x509_initialize demoLib [.str [45, 5]] ⟨false, some (sampleCert 0)⟩ []
      = (.ret (), ⟨false, some (sampleCert 5)⟩, []) ∧
    ossl_x509_initialize demoLib [.str [9]] ⟨false, some (sampleCert 0)⟩ []
      = (.raise ⟨.eX509CertError, some "PEM_read_bio_X509"⟩, ⟨false, some (sampleCert 0)⟩,
          [demoErrNoStartLine]) ∧
    ossl_x509_initialize demoLib [] ⟨false, some (sampleCert 0)⟩ []
      = (.ret (), ⟨false, some (sampleCert 0)⟩, []) :=
  ⟨(initialize_der_then_pem demoLib ⟨false, some (sampleCert 0)⟩ (.str [48, 7]) (.str [48, 7])
      [] ⟨[48, 7], 0⟩ rfl rfl rfl).1 (sampleCert 7) ⟨⟨[48, 7], 2⟩, []⟩ rfl,
   (initialize_der_then_pem demoLib ⟨false, some (sampleCert 0)⟩ (.str [45, 5]) (.str [45, 5])
      [] ⟨[45, 5], 0⟩ rfl rfl rfl).2.1 (sampleCert 5) ⟨⟨[45, 5], 0⟩, [demoErrAsn1]⟩
      ⟨⟨[45, 5], 2⟩, []⟩ rfl rfl,
   (initialize_der_then_pem demoLib ⟨false, some (sampleCert 0)⟩ (.str [9]) (.str [9])
      [] ⟨[9], 0⟩ rfl rfl rfl).2.2.2.1 rfl rfl,
   (initialize_der_then_pem demoLib ⟨false, some (sampleCert 0)⟩ (.str [9]) (.str [9])
      [] ⟨[9], 0⟩ rfl rfl rfl).2.2.2.2⟩

/-- C8: for a certificate and a key usable as a public key, verify returns true
exactly when the signature check answers 1 (valid); it returns false exactly
when the check answers 0 (signature did not match), and then the error queue is
empty on return; it raises exactly when the check gives any other answer.  The
certificate object is the same afterwards in every case. -/
theorem verify_outcomes {β : Type} (L : Lib β) (self : Certificate) (x : X509) (k : EVP_PKEY)
    (err : ErrQueue)
    (hdata : self.data = some x)
    (hpub : k.has_public = true) :
    ((ossl_x509_verify L self (.pkey k) err).1 = .ret true ↔ (L.X509_verify x k err).1 = 1) ∧
    ((ossl_x509_verify L self (.pkey k) err).1 = .ret false ↔ (L.X509_verify x k err).1 = 0) ∧
    ((L.X509_verify x k err).1 = 0 → (ossl_x509_verify L self (.pkey k) err).2.2 = []) ∧
    ((∃ e, (ossl_x509_verify L self (.pkey k) err).1 = .raise e) ↔
      ((L.X509_verify x k err).1 ≠ 1 ∧ (L.X509_verify x k err).1 ≠ 0)) ∧
    (ossl_x509_verify L self (.pkey k) err).2.1 = self := by
  rcases hv : L.X509_verify x k err with ⟨r, err1⟩
  simp only [ossl_x509_verify, GetX509, hdata, GetPKeyPtr, ossl_pkey_check_public_key, hpub,
    if_true, hv]
  by_cases h1 : r = 1
  · subst h1
    simp
  · by_cases h0 : r = 0
    · subst h0
      simp [ossl_clear_error]
    · simp [h1, h0]

/-- C8 at a matching key, a key that does not match, and a broken key. -/
theorem verify_outcomes_examples :
    (ossl_x509_verify demoLib ⟨false, some (sampleCert 5)⟩ (.pkey ⟨5, true, false⟩) []).1
      = .ret true ∧
    ossl_x509_verify demoLib ⟨false, some (sampleCert 5)⟩ (.pkey ⟨6, true, false⟩) []
      = (.ret false, ⟨false, some (sampleCert 5)⟩, []) ∧
    (∃ e, (ossl_x509_verify demoLib ⟨false, some (sampleCert 5)⟩
      (.pkey ⟨0, true, false⟩) []).1 = .raise e) :=
  ⟨(verify_outcomes demoLib ⟨false, some (sampleCert 5)⟩ (sampleCert 5) ⟨5, true, false⟩ []
      rfl rfl).1.mpr (by decide),
   Prod.ext ((verify_outcomes demoLib ⟨false, some (sampleCert 5)⟩ (sampleCert 5)
      ⟨6, true, false⟩ [] rfl rfl).2.1.mpr (by decide))
    (Prod.ext (verify_outcomes demoLib ⟨false, some (sampleCert 5)⟩ (sampleCert 5)
      ⟨6, true, false⟩ [] rfl rfl).2.2.2.2
      ((verify_outcomes demoLib ⟨false, some (sampleCert 5)⟩ (sampleCert 5)
      ⟨6, true, false⟩ [] rfl rfl).2.2.1 (by decide))),
   (verify_outcomes demoLib ⟨false, some (sampleCert 5)⟩ (sampleCert 5) ⟨0, true, false⟩ []
      rfl rfl).2.2.2.1.mpr (by decide)⟩

/-- C9: for a certificate and a key usable as a private key, checkPrivateKey
never raises; it returns true exactly when the key match check answers nonzero
(a match), and otherwise returns false with the error queue empty on return. -/
theorem check_private_key_outcomes {β : Type} (L : Lib β) (self : Certificate) (x : X509)
    (k : EVP_PKEY) (err : ErrQueue)
    (hdata : self.data = some x)
    (hpriv : k.has_private = true) :
    (∀ e, (ossl_x509_check_private_key L self (.pkey k) err).1 ≠ .raise e) ∧
    ((ossl_x509_check_private_key L self (.pkey k) err).1 = .ret true ↔
      (L.X509_check_private_key x k err).1 ≠ 0) ∧
    ((ossl_x509_check_private_key L self (.pkey k) err).1 = .ret false ↔
      (L.X509_check_private_key x k err).1 = 0) ∧
    ((L.X509_check_private_key x k err).1 = 0 →
      (ossl_x509_check_private_key L self (.pkey k) err).2.2 = []) ∧
    (ossl_x509_check_private_key L self (.pkey k) err).2.1 = self := by
  rcases hv : L.X509_check_private_key x k err with ⟨r, err1⟩
  simp only [ossl_x509_check_private_key, GetX509, hdata, GetPrivPKeyPtr, hpriv, if_true, hv]
  by_cases h0 : r = 0
  · subst h0
    simp [ossl_clear_error]
  · simp [h0]

/-- C9 at a matching key and at a key that does not match. -/
theorem check_private_key_outcomes_examples :
    (ossl_x509_check_private_key demoLib ⟨false, some (sampleCert 5)⟩
      (.pkey ⟨5, true, true⟩) []).1 = .ret true ∧
    (ossl_x509_check_private_key demoLib ⟨false, some (sampleCert 5)⟩
      (.pkey ⟨6, true, true⟩) []).1 = .ret false ∧
    (ossl_x509_check_private_key demoLib ⟨false, some (sampleCert 5)⟩
      (.pkey ⟨6, true, true⟩) []).2.2 = [] :=
  ⟨(check_private_key_outcomes demoLib ⟨false, some (sampleCert 5)⟩ (sampleCert 5)
      ⟨5, true, true⟩ [] rfl rfl).2.1.mpr (by decide),
   (check_private_key_outcomes demoLib ⟨false, some (sampleCert 5)⟩ (sampleCert 5)
      ⟨6, true, true⟩ [] rfl rfl).2.2.1.mpr (by decide),
   (check_private_key_outcomes demoLib ⟨false, some (sampleCert 5)⟩ (sampleCert 5)
      ⟨6, true, true⟩ [] rfl rfl).2.2.2.1 (by decide)⟩

/-- Deleting location 0 `n` times drops the first `n` extensions. -/
theorem ossl_x509_set_extensions_delete_eq (n : Nat) :
    ∀ (x : X509), ossl_x509_set_extensions_delete n x
      = { x with extensions := x.extensions.drop n } := by
  induction n with
  | zero => intro x; simp [ossl_x509_set_extensions_delete]
  | succ k ih =>
    intro x
    rw [ossl_x509_set_extensions_delete, ih]
    cases hx : x.extensions with
    | nil => simp [X509_delete_ext, hx]
    | cons e es => simp [X509_delete_ext, hx]

/-- Every member of a list of extension objects passes the kind check. -/
theorem ossl_x509_set_extensions_check_exts (xs : List X509_EXTENSION) :
    ossl_x509_set_extensions_check (xs.map VALUE.x509ext) = none := by
  induction xs with
  | nil => rfl
  | cons e es ih => simpa [ossl_x509_set_extensions_check, OSSL_Check_Kind_cX509Ext] using ih

/-- Adding extension objects with faithful duplicates appends them in order. -/
theorem ossl_x509_set_extensions_add_exts {β : Type} (L : Lib β) (xs : List X509_EXTENSION) :
    ∀ (x : X509), (∀ e ∈ xs, L.X509_EXTENSION_dup e = some e) →
      ossl_x509_set_extensions_add L (xs.map VALUE.x509ext) x
        = (none, { x with extensions := x.extensions ++ xs }) := by
  induction xs with
  | nil => intro x _; simp [ossl_x509_set_extensions_add]
  | cons e es ih =>
    intro x hdup
    have he : L.X509_EXTENSION_dup e = some e := hdup e (by simp)
    have hes : ∀ d ∈ es, L.X509_EXTENSION_dup d = some d := fun d hd => hdup d (by simp [hd])
    simp only [List.map_cons, ossl_x509_set_extensions_add, GetX509ExtPtr, X509_add_ext, he]
    simp [ih _ hes]

/-- Reading the extensions from index `i` on yields their objects in order. -/
theorem ossl_x509_get_extensions_loop_exts {β : Type} (L : Lib β) (x : X509)
    (hnew : ∀ e ∈ x.extensions, L.ossl_x509ext_new (some e) = .ok (.x509ext e)) (n : Nat) :
    ∀ (i : Nat) (ary : List VALUE), i + n = x.extensions.length →
      ossl_x509_get_extensions_loop L x n (i : Int) ary
        = .ret (ary ++ (x.extensions.drop i).map VALUE.x509ext) := by
  induction n with
  | zero =>
    intro i ary h
    have : x.extensions.drop i = [] := List.drop_eq_nil_of_le (by omega)
    simp [ossl_x509_get_extensions_loop, this]
  | succ k ih =>
    intro i ary h
    have hi : i < x.extensions.length := by omega
    have hget : X509_get_ext x (i : Int) = some (x.extensions[i]) := by
      simp [X509_get_ext, List.getElem?_eq_getElem hi]
    have hd : x.extensions.drop i = x.extensions[i] :: x.extensions.drop (i + 1) :=
      List.drop_eq_getElem_cons hi
    rw [ossl_x509_get_extensions_loop, hget, hnew _ (List.getElem_mem hi)]
    have := ih (i + 1) (ary ++ [VALUE.x509ext x.extensions[i]]) (by omega)
    simp only [Nat.cast_add, Nat.cast_one] at this
    simp only [this]
    rw [hd]
    simp only [List.map_cons, List.append_assoc, List.singleton_append]

/-- C10: setExtensions is replace-all.  For a certificate with any extension
list and any list xs of extension objects (whose duplicates are faithful),
setExtensions(xs) returns its argument and leaves the certificate with exactly
the extensions xs in order, none of the previous ones remaining, and
extensions then reads back exactly xs. -/
theorem set_extensions_replaces_all {β : Type} (L : Lib β) (self : Certificate) (x : X509)
    (xs : List X509_EXTENSION)
    (hdata : self.data = some x)
    (hdup : ∀ e ∈ xs, L.X509_EXTENSION_dup e = some e)
    (hnew : ∀ e ∈ xs, L.ossl_x509ext_new (some e) = .ok (.x509ext e)) :
    ossl_x509_set_extensions L self (.array (xs.map VALUE.x509ext))
      = (.ret (.array (xs.map VALUE.x509ext)),
          { self with data := some { x with extensions := xs } }) ∧
    ossl_x509_get_extensions L
        (ossl_x509_set_extensions L self (.array (xs.map VALUE.x509ext))).2
      = .ret (.array (xs.map VALUE.x509ext)) := by
  have hset : ossl_x509_set_extensions L self (.array (xs.map VALUE.x509ext))
      = (.ret (.array (xs.map VALUE.x509ext)),
          { self with data := some { x with extensions := xs } }) := by
    simp only [ossl_x509_set_extensions, Check_Type_T_ARRAY,
      ossl_x509_set_extensions_check_exts, GetX509, hdata, X509_get_ext_count,
      ossl_x509_set_extensions_delete_eq, Int.toNat_ofNat, List.drop_length]
    rw [ossl_x509_set_extensions_add_exts L xs _ hdup]
    simp
  refine ⟨hset, ?_⟩
  rw [hset]
  have hloop := ossl_x509_get_extensions_loop_exts L { x with extensions := xs } hnew
    xs.length 0 [] (by simp)
  simp only [Nat.cast_zero, List.drop_zero, List.nil_append] at hloop
  simp only [ossl_x509_get_extensions, GetX509, X509_get_ext_count, Int.toNat_ofNat, hloop]

/-- C10 at a certificate holding two extensions onto which one other extension
is set: only the new one remains. -/
theorem set_extensions_replaces_all_example :
    ossl_x509_set_extensions demoLib ⟨false, some ⟨2, 5, [⟨1, false, 10⟩, ⟨2, true, 20⟩]⟩⟩
        (.array ([⟨3, false, 30⟩].map VALUE.x509ext))
      = (.ret (.array ([⟨3, false, 30⟩].map VALUE.x509ext)),
          ⟨false, some ⟨2, 5, [⟨3, false, 30⟩]⟩⟩) ∧
    ossl_x509_get_extensions demoLib
        (ossl_x509_set_extensions demoLib
          ⟨false, some ⟨2, 5, [⟨1, false, 10⟩, ⟨2, true, 20⟩]⟩⟩
          (.array ([⟨3, false, 30⟩].map VALUE.x509ext))).2
      = .ret (.array ([⟨3, false, 30⟩].map VALUE.x509ext)) :=
  set_extensions_replaces_all demoLib ⟨false, some ⟨2, 5, [⟨1, false, 10⟩, ⟨2, true, 20⟩]⟩⟩
    ⟨2, 5, [⟨1, false, 10⟩, ⟨2, true, 20⟩]⟩ [⟨3, false, 30⟩] rfl
    (by intro e _; rfl) (by intro e _; rfl)

/-- C11, as stated, fails: 2^63 is not negative, yet setVersion refuses it with
a range error, the setter is never called, and a following version read still
answers the old version. -/
theorem set_version_rejects_above_long_max :
    (0 : Int) ≤ 9223372036854775808 ∧
    ossl_x509_set_version demoLib ⟨false, some (sampleCert 5)⟩ (.fixnum 9223372036854775808)
      = (.raise ⟨.rb_eRangeError, none⟩, ⟨false, some (sampleCert 5)⟩) ∧
    ossl_x509_get_version
        (ossl_x509_set_version demoLib ⟨false, some (sampleCert 5)⟩
          (.fixnum 9223372036854775808)).2
      = .ret (.fixnum 2) := by
  refine ⟨by decide, ?_, ?_⟩ <;> rfl

/-- The conversion answers an integer that fits the C type long. -/
theorem NUM2LONG_in_range {β : Type} (L : Lib β) (v : Int)
    (hr : -L.LONG_MAX - 1 ≤ v ∧ v ≤ L.LONG_MAX) : NUM2LONG L (.fixnum v) = .ok v := by
  simp only [NUM2LONG]
  rw [if_pos hr]

/-- The conversion refuses an integer that does not fit the C type long. -/
theorem NUM2LONG_out_of_range {β : Type} (L : Lib β) (v : Int)
    (hr : ¬ (-L.LONG_MAX - 1 ≤ v ∧ v ≤ L.LONG_MAX)) :
    NUM2LONG L (.fixnum v) = .error ⟨.rb_eRangeError, none⟩ := by
  simp only [NUM2LONG]
  rw [if_neg hr]

/-- C11, amended: for every integer v, setVersion(v) raises and leaves the
certificate unchanged if v is negative; if v is between 0 and LONG_MAX the
argument check passes and the underlying setter is handed v itself, its answer
deciding between an error and the return of v, so that a following version read
returns v when the setter stored what it was handed; and v above LONG_MAX is
refused with a range error, the certificate unchanged. -/
theorem set_version_checks_then_stores {β : Type} (L : Lib β) (self : Certificate) (v : Int) :
    (v < 0 → ∃ e, ossl_x509_set_version L self (.fixnum v) = (.raise e, self)) ∧
    (∀ x : X509, 0 ≤ v → v ≤ L.LONG_MAX → self.data = some x →
      ossl_x509_set_version L self (.fixnum v)
        = (if (L.X509_set_version x v).1 = 0 then .raise ⟨.eX509CertError, none⟩
            else .ret (.fixnum v),
          { self with data := some (L.X509_set_version x v).2 })) ∧
    (∀ x : X509, 0 ≤ v → v ≤ L.LONG_MAX → self.data = some x →
      (L.X509_set_version x v).1 ≠ 0 →
      X509_get_version (L.X509_set_version x v).2 = v →
      ossl_x509_get_version (ossl_x509_set_version L self (.fixnum v)).2
        = .ret (.fixnum v)) ∧
    (L.LONG_MAX < v →
      ossl_x509_set_version L self (.fixnum v) = (.raise ⟨.rb_eRangeError, none⟩, self)) := by
  have hmid : ∀ x : X509, 0 ≤ v → v ≤ L.LONG_MAX → self.data = some x →
      ossl_x509_set_version L self (.fixnum v)
        = (if (L.X509_set_version x v).1 = 0 then .raise ⟨.eX509CertError, none⟩
            else .ret (.fixnum v),
          { self with data := some (L.X509_set_version x v).2 }) := by
    intro x h0 hmax hdata
    have hr : -L.LONG_MAX - 1 ≤ v ∧ v ≤ L.LONG_MAX := ⟨by omega, hmax⟩
    have hn : ¬ v < 0 := by omega
    simp only [ossl_x509_set_version, NUM2LONG_in_range L v hr, hn, if_false, GetX509, hdata]
    split_ifs <;> rfl
  refine ⟨?_, hmid, ?_, ?_⟩
  · intro hneg
    by_cases hr : -L.LONG_MAX - 1 ≤ v ∧ v ≤ L.LONG_MAX
    · exact ⟨⟨.eX509CertError, some "version must be >= 0!"⟩, by
        simp only [ossl_x509_set_version, NUM2LONG_in_range L v hr, hneg, if_true]⟩
    · exact ⟨⟨.rb_eRangeError, none⟩, by
        simp only [ossl_x509_set_version, NUM2LONG_out_of_range L v hr]⟩
  · intro x h0 hmax hdata hok hget
    rw [hmid x h0 hmax hdata]
    simp [ossl_x509_get_version, GetX509, hget]
  · intro hbig
    have hr : ¬ (-L.LONG_MAX - 1 ≤ v ∧ v ≤ L.LONG_MAX) := by omega
    simp only [ossl_x509_set_version, NUM2LONG_out_of_range L v hr]

/-- C11, amended, at a negative version, at version 2 with a following read,
and at a version above LONG_MAX. -/
theorem set_version_checks_then_stores_examples :
    (∃ e, ossl_x509_set_version demoLib ⟨false, some (sampleCert 5)⟩ (.fixnum (-1))
      = (.raise e, ⟨false, some (sampleCert 5)⟩)) ∧
    ossl_x509_get_version
        (ossl_x509_set_version demoLib ⟨false, some ⟨0, 5, []⟩⟩ (.fixnum 2)).2
      = .ret (.fixnum 2) ∧
    ossl_x509_set_version demoLib ⟨false, some (sampleCert 5)⟩ (.fixnum 9223372036854775808)
      = (.raise ⟨.rb_eRangeError, none⟩, ⟨false, some (sampleCert 5)⟩) :=
  ⟨(set_version_checks_then_stores demoLib ⟨false, some (sampleCert 5)⟩ (-1)).1 (by decide),
   (set_version_checks_then_stores demoLib ⟨false, some ⟨0, 5, []⟩⟩ 2).2.2.1 ⟨0, 5, []⟩
      (by decide) (by decide) rfl (by decide) rfl,
   (set_version_checks_then_stores demoLib ⟨false, some (sampleCert 5)⟩
      9223372036854775808).2.2.2 (by decide)⟩

/-- A successful text phase leaves the error queue empty. -/
theorem load_chained_certificates_PEM_clean {β : Type} (L : Lib β) (fuel : Nat)
    (s t : St β) (cs : List Certificate)
    (h : load_chained_certificates_PEM L fuel s = some (.ret (some cs), t)) : t.err = [] := by
  rw [load_chained_certificates_PEM] at h
  rcases hread : L.PEM_read_bio_X509 s with ⟨_ | c, s1⟩
  · rw [hread] at h
    simp only at h
    split_ifs at h <;> simp at h
  · rw [hread] at h
    simp only [load_chained_certificates_append, ossl_x509_new] at h
    cases hd : L.X509_dup c with
    | none => simp [hd] at h
    | some d =>
      simp only [hd, Option.getD_none, List.nil_append] at h
      rcases hl : load_chained_certificates_PEM_loop L fuel s1 [⟨false, some d⟩]
        with _ | ⟨⟨r⟩ | e, s2⟩
      · simp [hl] at h
      · rw [hl] at h
        simp only at h
        split_ifs at h with h1 h2
        · simp only [Option.some.injEq, Prod.mk.injEq] at h
          rw [← h.2]
          rfl
        · simp only [Option.some.injEq, Prod.mk.injEq] at h
          rw [← h.2]
          exact (ERR_peek_last_error_eq_zero s2.err).mp h2.2
        · simp at h
      · simp [hl] at h

/-- C12: error-state hygiene of load.  Starting from an empty error queue, and
given that a successful binary decode records no error, the error queue is
empty whenever load returns: the error of a failed binary attempt and the "no
start line" error that ends the draining have been cleared. -/
theorem load_success_leaves_no_error {β : Type} (L : Lib β) (fuel : Nat) (buffer : VALUE)
    (cs : List Certificate) (q : ErrQueue)
    (hclean : ∀ (s s1 : St β) (c : X509), L.d2i_X509_bio s = (some c, s1) → s1.err = s.err)
    (h : ossl_x509_load L fuel buffer [] = some (.ret cs, q)) : q = [] := by
  simp only [ossl_x509_load] at h
  rcases hb : L.ossl_obj2bio buffer with e | bio
  · simp [hb] at h
  · simp only [hb, load_chained_certificates, load_chained_certificates_DER] at h
    rcases hd : L.d2i_X509_bio ⟨bio, []⟩ with ⟨_ | c, s1⟩
    · simp only [hd] at h
      rcases hp : load_chained_certificates_PEM L fuel
          (OSSL_BIO_reset L { s1 with err := ossl_clear_error s1.err })
        with _ | ⟨⟨_ | r⟩ | e, s2⟩
      · simp [hp] at h
      · simp [hp] at h
      · simp [hp] at h
        have := load_chained_certificates_PEM_clean L fuel _ s2 r hp
        rw [← h.2]
        exact this
      · simp [hp] at h
    · have hs1 : s1.err = [] := hclean _ _ _ hd
      simp only [hd, load_chained_certificates_append, ossl_x509_new] at h
      cases hdup : L.X509_dup c with
      | none => simp [hdup] at h
      | some d =>
        simp [hdup] at h
        rw [← h.2]
        exact hs1

/-- The binary decoder of the small library records no error when it succeeds. -/
theorem demo_d2i_clean (s s1 : St MemBuf) (c : X509)
    (h : demoLib.d2i_X509_bio s = (some c, s1)) : s1.err = s.err := by
  simp only [demoLib, demo_d2i] at h
  split at h
  · simp only [Prod.mk.injEq] at h
    rw [← h.2]
  · simp at h

/-- C12 at two text blocks, where both the binary attempt and the end of the
draining record an error. -/
theorem load_success_leaves_no_error_example :
    ERR_peek_last_error (demoLib.d2i_X509_bio ⟨⟨[45, 1, 45, 2], 0⟩, []⟩).2.err ≠ 0 ∧
    ossl_x509_load demoLib 2 (.str [45, 1, 45, 2]) []
      = some (.ret [⟨false, some (sampleCert 1)⟩, ⟨false, some (sampleCert 2)⟩], []) ∧
    ([] : ErrQueue) = [] :=
  ⟨by decide, rfl,
   load_success_leaves_no_error demoLib 2 (.str [45, 1, 45, 2])
    [⟨false, some (sampleCert 1)⟩, ⟨false, some (sampleCert 2)⟩] [] demo_d2i_clean rfl⟩

/-- C13: error-state hygiene of single-certificate decode.  When the binary
attempt fails and the text decoder, read from the reset position, succeeds
without recording an error, the error queue is empty when the constructor
returns, whatever the binary attempt recorded and whatever the queue held at
the start. -/
theorem initialize_pem_leaves_no_error {β : Type} (L : Lib β) (self : Certificate)
    (arg arg1 : VALUE) (err : ErrQueue) (bio : β) (x : X509) (s t : St β)
    (hfrozen : self.frozen = false)
    (hder : L.ossl_to_der_if_possible arg = .ok arg1)
    (hbio : L.ossl_obj2bio arg1 = .ok bio)
    (hd2i : L.d2i_X509_bio ⟨bio, err⟩ = (none, s))
    (hpem : L.PEM_read_bio_X509 (OSSL_BIO_reset L s) = (some x, t))
    (hclean : t.err = (OSSL_BIO_reset L s).err) :
    ossl_x509_initialize L [arg] self err = (.ret (), { self with data := some x }, []) := by
  simp only [ ossl_x509_initialize, hfrozen, hder, hbio, hd2i, hpem, hclean]
  simp [OSSL_BIO_reset, ossl_clear_error]

/-- C13 at a text block on which the binary attempt records an error. -/
theorem initialize_pem_leaves_no_error_example :
    ERR_peek_last_error (demoLib.d2i_X509_bio ⟨⟨[45, 5], 0⟩, []⟩).2.err ≠ 0 ∧
    ossl_x509_initialize demoLib [.str [45, 5]] ⟨false, none⟩ []
      = (.ret (), ⟨false, some (sampleCert 5)⟩, []) :=
  ⟨by decide,
   initialize_pem_leaves_no_error demoLib ⟨false, none⟩ (.str [45, 5]) (.str [45, 5]) []
    ⟨[45, 5], 0⟩ (sampleCert 5) ⟨⟨[45, 5], 0⟩, [demoErrAsn1]⟩ ⟨⟨[45, 5], 2⟩, []⟩
    rfl rfl rfl rfl rfl rfl⟩

/-- The member check fails with a type error as soon as one member is no
extension object. -/
theorem ossl_x509_set_extensions_check_fails (members : List VALUE)
    (h : ∃ m ∈ members, ∀ e, m ≠ VALUE.x509ext e) :
    ossl_x509_set_extensions_check members = some ⟨.rb_eTypeError, none⟩ := by
  induction members with
  | nil => simp at h
  | cons m ms ih =>
    cases m with
    | x509ext e0 =>
      obtain ⟨m1, hm1, hne⟩ := h
      have hms : ∃ m ∈ ms, ∀ e, m ≠ VALUE.x509ext e := by
        rcases List.mem_cons.mp hm1 with heq | hin
        · exact absurd heq (hne e0)
        · exact ⟨m1, hin, hne⟩
      simpa [ossl_x509_set_extensions_check, OSSL_Check_Kind_cX509Ext] using ih hms
    | _ => simp [ossl_x509_set_extensions_check, OSSL_Check_Kind_cX509Ext]

/-- C14: setExtensions validates before it mutates.  If the argument is not an
array, or some member of the array, at any position, is not an extension
object, setExtensions raises a type error and the certificate object, its
extension list included, is exactly as before. -/
theorem set_extensions_validates_first {β : Type} (L : Lib β) (self : Certificate) :
    (∀ ary : VALUE, (∀ members, ary ≠ .array members) →
      ossl_x509_set_extensions L self ary = (.raise ⟨.rb_eTypeError, none⟩, self)) ∧
    (∀ members : List VALUE, (∃ m ∈ members, ∀ e, m ≠ VALUE.x509ext e) →
      ossl_x509_set_extensions L self (.array members)
        = (.raise ⟨.rb_eTypeError, none⟩, self)) := by
  constructor
  · intro ary hary
    cases ary with
    | array members => exact absurd rfl (hary members)
    | _ => simp [ossl_x509_set_extensions, Check_Type_T_ARRAY]
  · intro members h
    simp [ossl_x509_set_extensions, Check_Type_T_ARRAY,
      ossl_x509_set_extensions_check_fails members h]

/-- C14 at an argument that is no array and at an array whose last member is
no extension object: the two extensions of the certificate stay. -/
theorem set_extensions_validates_first_examples :
    ossl_x509_set_extensions demoLib
        ⟨false, some ⟨2, 5, [⟨1, false, 10⟩, ⟨2, true, 20⟩]⟩⟩ (.fixnum 7)
      = (.raise ⟨.rb_eTypeError, none⟩,
          ⟨false, some ⟨2, 5, [⟨1, false, 10⟩, ⟨2, true, 20⟩]⟩⟩) ∧
    ossl_x509_set_extensions demoLib
        ⟨false, some ⟨2, 5, [⟨1, false, 10⟩, ⟨2, true, 20⟩]⟩⟩
        (.array [.x509ext ⟨3, false, 30⟩, .Qnil])
      = (.raise ⟨.rb_eTypeError, none⟩,
          ⟨false, some ⟨2, 5, [⟨1, false, 10⟩, ⟨2, true, 20⟩]⟩⟩) :=
  ⟨(set_extensions_validates_first demoLib
      ⟨false, some ⟨2, 5, [⟨1, false, 10⟩, ⟨2, true, 20⟩]⟩⟩).1 (.fixnum 7)
      (by intro members h; cases h),
   (set_extensions_validates_first demoLib
      ⟨false, some ⟨2, 5, [⟨1, false, 10⟩, ⟨2, true, 20⟩]⟩⟩).2
      [.x509ext ⟨3, false, 30⟩, .Qnil]
      ⟨.Qnil, by simp, by intro e h; cases h⟩⟩

end OsslX509Cert
